import Mathlib

/-!
Verification of the retry-and-rate-limit core of a Terraform provider for a
chat-platform REST API (discord/client.go).

Shallow embedding notes.
Durations are Go time.Duration values, i.e. int64 nanoseconds, modelled as
Int, with explicit two's-complement wrapping (goInt64) exactly at the
operations where the Go code can overflow.  Fractional seconds travel
through float64 in Go; they are modelled as exact rationals, which agrees
with float64 on every value exercised here (small dyadic decimals such as
1.5 and 3.0 are exactly representable, and their products with 1e9 are
exact).  The live response-body stream is mutable in Go (io.ReadAll
consumes it), so parseRetryAfter is embedded as a state-passing function
returning both the duration and the error value after the call.
-/

namespace DiscordClient

/-- maxRetries = 5 from client.go. -/
def maxRetries : Nat := 5

/-- baseBackoff = 1 * time.Second, in nanoseconds. -/
def baseBackoff : Int := 1 * 1000000000

/-- maxBackoff = 120 * time.Second, in nanoseconds. -/
def maxBackoff : Int := 120 * 1000000000

/-- Wrap an integer into the signed 64-bit range, the semantics of Go's
int64 arithmetic.  The literals are 2^63 and 2^64. -/
def goInt64 (n : Int) : Int :=
  (n + 9223372036854775808) % 18446744073709551616 - 9223372036854775808

/-- Go's conversion from float64 to an integer type truncates toward
zero; this is the rational counterpart. -/
def goTrunc (q : ℚ) : Int := if 0 ≤ q then ⌊q⌋ else -⌊-q⌋

/-- Value of a list of decimal digit characters. -/
def digitsToNat (ds : List Char) : Nat :=
  ds.foldl (fun a c => 10 * a + (c.toNat - 48)) 0

/-- Unsigned part of the decimal grammar digits [ . digits ] with at
least one digit present. -/
def parseFloatCore (cs : List Char) : Option ℚ :=
  let ip := cs.takeWhile (fun c => c.isDigit)
  let rest := cs.dropWhile (fun c => c.isDigit)
  match rest with
  | [] => if ip.isEmpty then none else some ((digitsToNat ip : ℚ))
  | '.' :: frac =>
      if frac.all (fun c => c.isDigit) && !(ip.isEmpty && frac.isEmpty) then
        some ((digitsToNat ip : ℚ) + (digitsToNat frac : ℚ) / (10 : ℚ) ^ frac.length)
      else none
  | _ => none

/-- Models strconv.ParseFloat(s, 64) on the plain decimal forms
sign digits [ . digits ] that the Retry-After header carries; other
syntaxes accepted by Go (exponents, hex floats, infinities) are treated
as parse failures here, and the parsed value is the exact rational, which
coincides with the float64 value wherever that value is exactly
representable (all inputs exercised by the claims are). -/
def parseFloat (s : String) : Option ℚ :=
  match s.toList with
  | [] => none
  | '+' :: cs => parseFloatCore cs
  | '-' :: cs => (parseFloatCore cs).map (fun q => -q)
  | cs => parseFloatCore cs

/-- The RateLimitError shape of client.go as json.Unmarshal produces it:
a body is either bytes that fail to unmarshal into that struct, or bytes
that decode, carrying the message, retry_after (0 when the field is
absent) and global fields.  Only retry_after is consumed downstream. -/
inductive JSONBody where
  | malformed
  | decoded (message : String) (retryAfter : ℚ) (globalFlag : Bool)

/-- Read state of an http.Response.Body stream (io.ReadCloser): fresh is
an unread stream whose full contents decode as the given body; drained is
a stream already read to EOF, where io.ReadAll succeeds with empty bytes
(which then fail to unmarshal); failing is a stream whose read returns an
error. -/
inductive StreamState where
  | failing
  | fresh (b : JSONBody)
  | drained

/-- io.ReadAll on a body stream: the decoded content (none when the read
itself errors) and the stream state afterwards. -/
def readAll : StreamState → Option JSONBody × StreamState
  | .failing => (none, .failing)
  | .fresh b => (some b, .drained)
  | .drained => (some .malformed, .drained)

/-- The slice of http.Response that client.go consumes: the status code,
the header table through its Get method (empty string when the header is
absent), and the live body stream (none for a nil Body). -/
structure HTTPResponse where
  statusCode : Int
  headerGet : String → String
  body : Option StreamState

/-- discordgo.RESTError, restricted to the fields client.go reads: the
attached response (none for a nil Response) and the pre-read ResponseBody
bytes (none for nil bytes, otherwise their decoding). -/
structure RESTError where
  response : Option HTTPResponse
  responseBody : Option JSONBody

/-- The Retry-After header branch of parseRetryAfter: a nonempty header
value accepted by strconv.ParseFloat. -/
def headerSignal (resp : HTTPResponse) : Option ℚ :=
  let s := resp.headerGet "Retry-After"
  if s = "" then none else parseFloat s

/-- The pre-read ResponseBody branch of parseRetryAfter: non-nil bytes
that unmarshal into RateLimitError with RetryAfter > 0. -/
def prereadSignal : Option JSONBody → Option ℚ
  | none => none
  | some .malformed => none
  | some (.decoded _ ra _) => if 0 < ra then some ra else none

/-- The live Response.Body branch of parseRetryAfter: read the stream and
accept a decode with RetryAfter > 0; returns the signal together with the
stream state after the read (io.ReadAll consumes the stream). -/
def liveSignal : Option StreamState → Option ℚ × Option StreamState
  | none => (none, none)
  | some st =>
      match readAll st with
      | (none, st2) => (none, some st2)
      | (some .malformed, st2) => (none, some st2)
      | (some (.decoded _ ra _), st2) =>
          (if 0 < ra then some ra else none, some st2)

/-- time.Duration(seconds * float64(time.Second)): seconds to
nanoseconds, truncated toward zero. -/
def secondsToDuration (seconds : ℚ) : Int := goTrunc (seconds * 1000000000)

/-- parseRetryAfter from client.go.  First component: the returned
time.Duration in nanoseconds.  Second component: the error value after
the call; in Go the error is passed by pointer and reading the live body
stream mutates it, so the branch that touches Response.Body records the
consumed stream while every other branch leaves the error unchanged. -/
def parseRetryAfter (restErr : RESTError) : Int × RESTError :=
  match restErr.response with
  | none => (5 * 1000000000, restErr)
  | some resp =>
      match headerSignal resp with
      | some seconds => (secondsToDuration seconds, restErr)
      | none =>
          match prereadSignal restErr.responseBody with
          | some ra => (secondsToDuration ra, restErr)
          | none =>
              let lv := liveSignal resp.body
              let restErr2 : RESTError :=
                { restErr with response := some { resp with body := lv.2 } }
              match lv.1 with
              | some ra => (secondsToDuration ra, restErr2)
              | none => (5 * 1000000000, restErr2)

/-- calculateBackoff from client.go.  attempt is the loop counter (a
natural number at every call site); retryAfter is a time.Duration.  The
shift 1 << uint(attempt) and the int64 multiplication by baseBackoff wrap
exactly as Go's two's-complement arithmetic does, captured by goInt64
(for attempt >= 64 the Go shift yields 0, and goInt64 (2 ^ attempt) is 0
there as well). -/
def calculateBackoff (attempt : Nat) (retryAfter : Int) : Int :=
  if 0 < retryAfter ∧ retryAfter < maxBackoff then
    retryAfter + 500 * 1000000
  else
    let backoff := goInt64 (baseBackoff * goInt64 (2 ^ attempt))
    if maxBackoff < backoff then maxBackoff else backoff

/-- Go error values as the retry loop distinguishes them: a pointer to a
discordgo.RESTError, any other error (identified by its message), and the
wrapped error built by fmt.Errorf for the exhausted-retries return (it
records maxRetries and the wrapped inner error; the inner error is an
Option only because the field it wraps is the loop's err local). -/
inductive GoErr where
  | rest (e : RESTError)
  | simple (msg : String)
  | maxRetriesExceeded (n : Nat) (inner : Option GoErr)

/-- The classification made inside the retry loop: the error is a
discordgo.RESTError whose Response is non-nil with StatusCode == 429. -/
def isRateLimited : GoErr → Bool
  | .rest re =>
      match re.response with
      | some resp => resp.statusCode == 429
      | none => false
  | _ => false

/-- An operation outcome that the loop treats as rate-limited: the call
failed and the error classifies as a 429 REST error. -/
def failed429 {T : Type} (out : T × Option GoErr) : Bool :=
  match out.2 with
  | some e => isRateLimited e
  | none => false

/-- A cancellation context, modelled by what ctx.Err() returns at each
successive query the executor makes (none = not signalled).  A real Go
context is monotone (once non-nil, always the same non-nil error); no
result below needs that restriction, so the model quantifies over more
contexts than Go can build. -/
def Ctx : Type := Nat → Option GoErr

/-- The never-signalled context (context.Background()). -/
def ctxNever : Ctx := fun _ => none

/-- An operation under retry: the outcome of its n-th invocation. -/
def Operation (T : Type) : Type := Nat → T × Option GoErr

/-- Observable outcome of one executeWithRetry call: the returned result
and error, instrumented with the number of operation invocations and the
list of waits (time.After durations) actually slept. -/
structure RunResult (T : Type) where
  result : T
  error : Option GoErr
  opCalls : Nat
  waits : List Int

/-- The loop for attempt := 0; attempt < maxRetries; attempt++ of
executeWithRetry.  fuel is maxRetries - attempt; queries counts the
context observations made so far (one at the top of each iteration, one
in the select); calls counts operation invocations; result and err are
the loop's mutable locals, acc the waits slept so far.  In the select,
cancellation is observed first, and the wait is recorded only when it
elapses. -/
def retryLoop {T : Type} (ctx : Ctx) (op : Operation T) :
    Nat → Nat → Nat → Nat → List Int → T → Option GoErr → RunResult T
  | 0, _, _, calls, acc, result, err =>
      ⟨result, some (.maxRetriesExceeded maxRetries err), calls, acc⟩
  | fuel + 1, attempt, queries, calls, acc, result, _ =>
      match ctx queries with
      | some ce => ⟨result, some ce, calls, acc⟩
      | none =>
          match op calls with
          | (r, none) => ⟨r, none, calls + 1, acc⟩
          | (r, some e) =>
              match e with
              | .rest restE =>
                  match restE.response with
                  | some resp =>
                      if resp.statusCode == 429 then
                        let w := calculateBackoff attempt (parseRetryAfter restE).1
                        match ctx (queries + 1) with
                        | some ce => ⟨r, some ce, calls + 1, acc⟩
                        | none =>
                            retryLoop ctx op fuel (attempt + 1) (queries + 2)
                              (calls + 1) (acc ++ [w]) r (some (.rest restE))
                      else ⟨r, some (.rest restE), calls + 1, acc⟩
                  | none => ⟨r, some (.rest restE), calls + 1, acc⟩
              | .simple m => ⟨r, some (.simple m), calls + 1, acc⟩
              | .maxRetriesExceeded n inner =>
                  ⟨r, some (.maxRetriesExceeded n inner), calls + 1, acc⟩

/-- executeWithRetry from client.go, instrumented.  The generic result
starts at its zero value, modelled by default. -/
def executeWithRetry {T : Type} [Inhabited T] (ctx : Ctx) (op : Operation T) :
    RunResult T :=
  retryLoop ctx op maxRetries 0 0 0 [] default none

/-- executeWithRetryNoResult from client.go: adapt the error-only
operation into the generic form with an empty-struct placeholder, run the
generic executor, and return only the error. -/
def executeWithRetryNoResult (ctx : Ctx) (op : Nat → Option GoErr) :
    Option GoErr :=
  (executeWithRetry ctx (fun n => ((), op n))).error

/-! Helper lemmas about goInt64 and calculateBackoff, shared by the
claims below. -/

theorem goInt64_eq_self {n : Int} (h1 : -9223372036854775808 ≤ n)
    (h2 : n < 9223372036854775808) : goInt64 n = n := by
  unfold goInt64
  rw [Int.emod_eq_of_lt (by omega) (by omega)]
  omega

theorem goInt64_lb (n : Int) : -9223372036854775808 ≤ goInt64 n := by
  unfold goInt64
  have := Int.emod_nonneg (n + 9223372036854775808)
    (by norm_num : (18446744073709551616:ℤ) ≠ 0)
  omega

theorem backoff_suggested_eq (attempt : Nat) (d : Int)
    (h1 : 0 < d) (h2 : d < 120000000000) :
    calculateBackoff attempt d = d + 500000000 := by
  unfold calculateBackoff
  rw [if_pos ⟨h1, by unfold maxBackoff; omega⟩]
  norm_num

theorem backoff_exp_eq (attempt : Nat) (d : Int)
    (ha : attempt ≤ 33) (hd : d ≤ 0 ∨ 120000000000 ≤ d) :
    calculateBackoff attempt d = min (1000000000 * 2 ^ attempt) 120000000000 := by
  have hpow1 : (0:ℤ) < 2 ^ attempt := pow_pos (by norm_num) _
  have hpow2 : (2:ℤ) ^ attempt ≤ 2 ^ 33 :=
    pow_le_pow_right₀ (by norm_num) ha
  have h33 : (2:ℤ) ^ 33 = 8589934592 := by norm_num
  rw [h33] at hpow2
  have hsh : goInt64 (2 ^ attempt) = 2 ^ attempt :=
    goInt64_eq_self (by omega) (by omega)
  have hmul : goInt64 (baseBackoff * goInt64 (2 ^ attempt)) =
      1000000000 * 2 ^ attempt := by
    rw [hsh]
    unfold baseBackoff
    rw [one_mul]
    exact goInt64_eq_self (by nlinarith) (by nlinarith)
  unfold calculateBackoff
  rw [if_neg (by unfold maxBackoff; omega)]
  simp only [hmul]
  rcases le_or_lt (1000000000 * 2 ^ attempt) maxBackoff with hle | hlt
  · rw [if_neg (not_lt.2 hle), min_eq_left (by unfold maxBackoff at hle; omega)]
  · rw [if_pos hlt, min_eq_right (by unfold maxBackoff at hlt; omega)]
    unfold maxBackoff
    norm_num

theorem backoff_lt_sup (a : Nat) (w : Int) :
    calculateBackoff a w < 120500000000 := by
  unfold calculateBackoff
  by_cases h : 0 < w ∧ w < maxBackoff
  · rw [if_pos h]
    unfold maxBackoff at h
    omega
  · rw [if_neg h]
    simp only
    by_cases h2 : maxBackoff < goInt64 (baseBackoff * goInt64 (2 ^ a))
    · rw [if_pos h2]
      unfold maxBackoff
      norm_num
    · rw [if_neg h2]
      unfold maxBackoff at h2
      omega

/-- C3: for every duration d with 0 < d < 120 seconds and every attempt
index, calculateBackoff returns exactly d plus 500 milliseconds,
independent of the attempt index (nanosecond units throughout). -/
theorem calculateBackoff_suggested_wait (attempt : Nat) (d : Int)
    (h1 : 0 < d) (h2 : d < 120000000000) :
    calculateBackoff attempt d = d + 500000000 :=
  backoff_suggested_eq attempt d h1 h2

/-- C3 witness: a 3-second suggested wait at attempt 7 yields 3.5
seconds. -/
theorem calculateBackoff_suggested_wait_witness :
    0 < (3000000000:Int) ∧ (3000000000:Int) < 120000000000 ∧
    calculateBackoff 7 3000000000 = 3000000000 + 500000000 :=
  ⟨by decide, by decide,
    calculateBackoff_suggested_wait 7 3000000000 (by decide) (by decide)⟩

/-- C4 counterexample: at attempt index 34 the int64 multiplication
baseBackoff * (1 << 34) overflows in Go, producing a negative duration
rather than the exponential value clamped to the 120-second ceiling, so
the claim's universal quantification over attempt indices fails. -/
theorem calculateBackoff_overflow_counterexample :
    calculateBackoff 34 0 = -1266874889709551616 ∧
    calculateBackoff 34 0 ≠ min (1000000000 * 2 ^ 34) 120000000000 := by
  constructor
  · decide
  · decide

/-- C4 amended: for attempt indices up to 33 (where the Go int64
arithmetic does not overflow) and every non-suggesting duration,
calculateBackoff equals 1 second times 2 ^ attempt clamped to the
120-second ceiling; the exponential table at attempts 0-4 and the
ceiling at attempt 10 hold as claimed. -/
theorem calculateBackoff_exponential_clamped (attempt : Nat) (d : Int)
    (ha : attempt ≤ 33) (hd : d ≤ 0 ∨ 120000000000 ≤ d) :
    calculateBackoff attempt d = min (1000000000 * 2 ^ attempt) 120000000000 ∧
    calculateBackoff 0 0 = 1000000000 ∧
    calculateBackoff 1 0 = 2000000000 ∧
    calculateBackoff 2 0 = 4000000000 ∧
    calculateBackoff 3 0 = 8000000000 ∧
    calculateBackoff 4 0 = 16000000000 ∧
    calculateBackoff 10 0 = 120000000000 :=
  ⟨backoff_exp_eq attempt d ha hd, by decide, by decide, by decide,
    by decide, by decide, by decide⟩

/-- C4 witness: the amended claim at attempt 10 with a 200-second
suggested wait (at or above the ceiling, hence ignored). -/
theorem calculateBackoff_exponential_clamped_witness :
    (10:Nat) ≤ 33 ∧
    ((200000000000:Int) ≤ 0 ∨ (120000000000:Int) ≤ 200000000000) ∧
    (calculateBackoff 10 200000000000 =
        min (1000000000 * 2 ^ 10) 120000000000 ∧
      calculateBackoff 0 0 = 1000000000 ∧
      calculateBackoff 1 0 = 2000000000 ∧
      calculateBackoff 2 0 = 4000000000 ∧
      calculateBackoff 3 0 = 8000000000 ∧
      calculateBackoff 4 0 = 16000000000 ∧
      calculateBackoff 10 0 = 120000000000) :=
  ⟨by decide, Or.inr (by decide),
    calculateBackoff_exponential_clamped 10 200000000000 (by decide)
      (Or.inr (by decide))⟩

/-- C10: the 120-second ceiling does not bound the returned duration:
for suggested waits strictly between 119.5 and 120 seconds the result is
the wait plus 500 milliseconds, strictly above 120 seconds; over all
inputs the result stays strictly below 120.5 seconds, and the bound is
tight, the maximum 120.5 seconds minus one nanosecond being attained. -/
theorem calculateBackoff_supremum (attempt : Nat) (d : Int)
    (h1 : 119500000000 < d) (h2 : d < 120000000000) :
    calculateBackoff attempt d = d + 500000000 ∧
    120000000000 < calculateBackoff attempt d ∧
    (∀ (a : Nat) (w : Int), calculateBackoff a w < 120500000000) ∧
    calculateBackoff 0 119999999999 = 120499999999 := by
  have he := backoff_suggested_eq attempt d (by omega) h2
  refine ⟨he, by omega, backoff_lt_sup, ?_⟩
  rw [backoff_suggested_eq 0 119999999999 (by decide) (by decide)]
  norm_num

/-- C10 witness: the supremum facts at attempt 2 and a wait of 119.75
seconds. -/
theorem calculateBackoff_supremum_witness :
    (119500000000:Int) < 119750000000 ∧ (119750000000:Int) < 120000000000 ∧
    (calculateBackoff 2 119750000000 = 119750000000 + 500000000 ∧
      120000000000 < calculateBackoff 2 119750000000 ∧
      (∀ (a : Nat) (w : Int), calculateBackoff a w < 120500000000) ∧
      calculateBackoff 0 119999999999 = 120499999999) :=
  ⟨by decide, by decide,
    calculateBackoff_supremum 2 119750000000 (by decide) (by decide)⟩

/-! Branch lemmas for parseRetryAfter, shared by the claims below. -/

theorem parseRetryAfter_noResponse {e : RESTError} (h : e.response = none) :
    parseRetryAfter e = (5 * 1000000000, e) := by
  unfold parseRetryAfter
  rw [h]

theorem parseRetryAfter_header {e : RESTError} {resp : HTTPResponse} {q : ℚ}
    (h : e.response = some resp) (hh : headerSignal resp = some q) :
    parseRetryAfter e = (secondsToDuration q, e) := by
  unfold parseRetryAfter
  rw [h]
  simp only [hh]

theorem parseRetryAfter_preread {e : RESTError} {resp : HTTPResponse} {q : ℚ}
    (h : e.response = some resp) (hh : headerSignal resp = none)
    (hp : prereadSignal e.responseBody = some q) :
    parseRetryAfter e = (secondsToDuration q, e) := by
  unfold parseRetryAfter
  rw [h]
  simp only [hh, hp]

theorem parseRetryAfter_liveSome {e : RESTError} {resp : HTTPResponse} {q : ℚ}
    (h : e.response = some resp) (hh : headerSignal resp = none)
    (hp : prereadSignal e.responseBody = none)
    (hl : (liveSignal resp.body).1 = some q) :
    parseRetryAfter e = (secondsToDuration q,
      { e with response := some { resp with body := (liveSignal resp.body).2 } }) := by
  unfold parseRetryAfter
  rw [h]
  simp only [hh, hp, hl]

theorem parseRetryAfter_liveNone {e : RESTError} {resp : HTTPResponse}
    (h : e.response = some resp) (hh : headerSignal resp = none)
    (hp : prereadSignal e.responseBody = none)
    (hl : (liveSignal resp.body).1 = none) :
    parseRetryAfter e = (5 * 1000000000,
      { e with response := some { resp with body := (liveSignal resp.body).2 } }) := by
  unfold parseRetryAfter
  rw [h]
  simp only [hh, hp, hl]

theorem headerSignal_none_of_parse {resp : HTTPResponse}
    (hp : parseFloat (resp.headerGet "Retry-After") = none) :
    headerSignal resp = none := by
  unfold headerSignal
  by_cases hs : resp.headerGet "Retry-After" = ""
  · simp [hs]
  · simp [hs, hp]

theorem goTrunc_intCast (n : ℤ) : goTrunc (n : ℚ) = n := by
  unfold goTrunc
  rcases le_or_lt 0 n with h | h
  · rw [if_pos (by exact_mod_cast h), Int.floor_intCast]
  · rw [if_neg (not_le.2 (by exact_mod_cast h)), ← Int.cast_neg,
      Int.floor_intCast]
    omega

theorem secondsToDuration_int (q : ℚ) (n : ℤ) (h : q * 1000000000 = (n:ℚ)) :
    secondsToDuration q = n := by
  unfold secondsToDuration
  rw [h, goTrunc_intCast]

theorem parseFloat_header15 : parseFloat "1.5" = some (3/2) := by
  have h : parseFloat "1.5" =
      some ((digitsToNat ['1'] : ℚ) +
        (digitsToNat ['5'] : ℚ) / (10:ℚ) ^ (['5'].length)) := rfl
  have d1 : digitsToNat ['1'] = 1 := rfl
  have d5 : digitsToNat ['5'] = 5 := rfl
  rw [h, d1, d5]
  norm_num

/-- C2: priority order of parseRetryAfter.  A parseable Retry-After
header wins regardless of what the payload holds; the header value 1.5
yields exactly 1500 milliseconds; with an empty header, a pre-read
payload with retry_after 3.0 yields exactly 3 seconds. -/
theorem parseRetryAfter_priority (e : RESTError) (resp : HTTPResponse)
    (h : e.response = some resp) :
    (∀ q : ℚ, resp.headerGet "Retry-After" ≠ "" →
        parseFloat (resp.headerGet "Retry-After") = some q →
        (parseRetryAfter e).1 = secondsToDuration q) ∧
    (resp.headerGet "Retry-After" = "1.5" →
        (parseRetryAfter e).1 = 1500000000) ∧
    (∀ (msg : String) (g : Bool), resp.headerGet "Retry-After" = "" →
        e.responseBody = some (.decoded msg 3 g) →
        (parseRetryAfter e).1 = 3000000000) := by
  have hheader : ∀ q : ℚ, resp.headerGet "Retry-After" ≠ "" →
      parseFloat (resp.headerGet "Retry-After") = some q →
      (parseRetryAfter e).1 = secondsToDuration q := by
    intro q hne hq
    have hh : headerSignal resp = some q := by
      unfold headerSignal
      rw [if_neg hne]
      exact hq
    rw [parseRetryAfter_header h hh]
  refine ⟨hheader, ?_, ?_⟩
  · intro h15
    have := hheader (3/2) (by rw [h15]; decide)
      (by rw [h15]; exact parseFloat_header15)
    rw [this]
    exact secondsToDuration_int _ _ (by push_cast; norm_num)
  · intro msg g hempty hbody
    have hh : headerSignal resp = none := by
      unfold headerSignal
      rw [if_pos hempty]
    have hp : prereadSignal e.responseBody = some 3 := by
      rw [hbody]
      simp only [prereadSignal]
      norm_num
    rw [parseRetryAfter_preread h hh hp]
    exact secondsToDuration_int _ _ (by push_cast; norm_num)

/-- Response carrying the Retry-After header 1.5 together with a payload
suggesting 7 seconds: the header must win. -/
def respHeader15 : HTTPResponse :=
  { statusCode := 429,
    headerGet := fun s => if s = "Retry-After" then "1.5" else "",
    body := none }

/-- The REST error around respHeader15. -/
def errHeader15 : RESTError :=
  { response := some respHeader15,
    responseBody := some (.decoded "You are being rate limited." 7 false) }

/-- C2 witness: the priority facts instantiated on errHeader15. -/
theorem parseRetryAfter_priority_witness :
    errHeader15.response = some respHeader15 ∧
    ((∀ q : ℚ, respHeader15.headerGet "Retry-After" ≠ "" →
        parseFloat (respHeader15.headerGet "Retry-After") = some q →
        (parseRetryAfter errHeader15).1 = secondsToDuration q) ∧
     (respHeader15.headerGet "Retry-After" = "1.5" →
        (parseRetryAfter errHeader15).1 = 1500000000) ∧
     (∀ (msg : String) (g : Bool), respHeader15.headerGet "Retry-After" = "" →
        errHeader15.responseBody = some (.decoded msg 3 g) →
        (parseRetryAfter errHeader15).1 = 3000000000)) :=
  ⟨rfl, parseRetryAfter_priority errHeader15 respHeader15 rfl⟩

/-- C8: parseRetryAfter is total by its type (it returns a duration for
every error, never an error of its own); when no response is attached, or
no source yields a parseable positive signal, it returns exactly the
5-second fallback; and a malformed header falls through to the pre-read
payload instead of failing. -/
theorem parseRetryAfter_total_fallback (e : RESTError) :
    (e.response = none → (parseRetryAfter e).1 = 5000000000) ∧
    (∀ resp : HTTPResponse, e.response = some resp →
        headerSignal resp = none →
        prereadSignal e.responseBody = none →
        (liveSignal resp.body).1 = none →
        (parseRetryAfter e).1 = 5000000000) ∧
    (∀ (resp : HTTPResponse) (msg : String) (ra : ℚ) (g : Bool),
        e.response = some resp →
        parseFloat (resp.headerGet "Retry-After") = none →
        e.responseBody = some (.decoded msg ra g) → 0 < ra →
        (parseRetryAfter e).1 = secondsToDuration ra) := by
  refine ⟨?_, ?_, ?_⟩
  · intro h
    rw [parseRetryAfter_noResponse h]
    norm_num
  · intro resp h hh hp hl
    rw [parseRetryAfter_liveNone h hh hp hl]
    norm_num
  · intro resp msg ra g h hhp hbody hra
    have hh : headerSignal resp = none := headerSignal_none_of_parse hhp
    have hp : prereadSignal e.responseBody = some ra := by
      rw [hbody]
      simp only [prereadSignal]
      rw [if_pos hra]
    rw [parseRetryAfter_preread h hh hp]

/-- A response whose header is unparseable, whose pre-read body is
malformed JSON and whose live stream fails to read. -/
def respFallback : HTTPResponse :=
  { statusCode := 429,
    headerGet := fun _ => "soon",
    body := some .failing }

/-- The REST error around respFallback. -/
def errFallback : RESTError :=
  { response := some respFallback, responseBody := some .malformed }

/-- C8 witness: every signal source of errFallback is present but
malformed, and the result is exactly the 5-second fallback. -/
theorem parseRetryAfter_total_fallback_witness :
    errFallback.response = some respFallback ∧
    headerSignal respFallback = none ∧
    prereadSignal errFallback.responseBody = none ∧
    (liveSignal respFallback.body).1 = none ∧
    (parseRetryAfter errFallback).1 = 5000000000 :=
  ⟨rfl, by decide, rfl, rfl,
    (parseRetryAfter_total_fallback errFallback).2.1 respFallback rfl
      (by decide) rfl rfl⟩

/-- Response whose only wait signal lives in the live body stream: the
header is absent and there is no pre-read body. -/
def respLive : HTTPResponse :=
  { statusCode := 429,
    headerGet := fun _ => "",
    body := some (.fresh (.decoded "You are being rate limited." 3 false)) }

/-- The REST error around respLive. -/
def liveOnlyErr : RESTError :=
  { response := some respLive, responseBody := none }

/-- C5 counterexample: parseRetryAfter has hidden state through the live
response-body stream.  In Go the error is passed by pointer and
io.ReadAll consumes Response.Body, so calling parseRetryAfter twice on
the identical error value (the same pointer) yields 3 seconds first and
the 5-second fallback second: the durations differ, refuting the claim
that the live-stream case is pure. -/
theorem parseRetryAfter_stream_consumption_counterexample :
    (parseRetryAfter liveOnlyErr).1 = 3000000000 ∧
    (parseRetryAfter (parseRetryAfter liveOnlyErr).2).1 = 5000000000 ∧
    (parseRetryAfter (parseRetryAfter liveOnlyErr).2).1 ≠
      (parseRetryAfter liveOnlyErr).1 := by
  have h1 := @parseRetryAfter_liveSome liveOnlyErr respLive 3
    rfl (by decide) rfl rfl
  have hA : (parseRetryAfter liveOnlyErr).1 = 3000000000 := by
    rw [h1]
    exact secondsToDuration_int _ _ (by push_cast; norm_num)
  have h2 := @parseRetryAfter_liveNone (parseRetryAfter liveOnlyErr).2
    { respLive with body := (liveSignal respLive.body).2 }
    (by rw [h1]) (by decide) (by rw [h1]; rfl) rfl
  have hB : (parseRetryAfter (parseRetryAfter liveOnlyErr).2).1 =
      5000000000 := by
    rw [h2]
    norm_num
  refine ⟨hA, hB, ?_⟩
  rw [hA, hB]
  decide

/-- The live response-body stream path of parseRetryAfter runs exactly
when a response is attached, neither the header nor the pre-read body
yields a signal, and a live stream is present. -/
def usesLiveStream (e : RESTError) : Bool :=
  match e.response with
  | none => false
  | some resp =>
      (headerSignal resp).isNone && (prereadSignal e.responseBody).isNone &&
        resp.body.isSome

/-- C5 amended: calculateBackoff is a pure function of its arguments (its
type takes no stream state at all), and parseRetryAfter is deterministic
as a function of the full error value; but a call taking the live-stream
path consumes the stream.  Whenever that path is not taken, the error
comes back unchanged and a repeated call returns the identical result;
the counterexample shows the live-stream-only case genuinely differs. -/
theorem parseRetryAfter_deterministic_without_stream (e : RESTError)
    (h : usesLiveStream e = false) :
    (parseRetryAfter e).2 = e ∧
    parseRetryAfter ((parseRetryAfter e).2) = parseRetryAfter e := by
  have hstate : (parseRetryAfter e).2 = e := by
    cases hresp : e.response with
    | none => rw [parseRetryAfter_noResponse hresp]
    | some resp =>
        simp only [usesLiveStream, hresp] at h
        cases hh : headerSignal resp with
        | some q => rw [parseRetryAfter_header hresp hh]
        | none =>
            cases hp : prereadSignal e.responseBody with
            | some q => rw [parseRetryAfter_preread hresp hh hp]
            | none =>
                cases hb : resp.body with
                | some st => rw [hh, hp, hb] at h; simp at h
                | none =>
                    rw [parseRetryAfter_liveNone hresp hh hp (by rw [hb]; rfl)]
                    have hl2 : (liveSignal resp.body).2 = none := by
                      rw [hb]
                      rfl
                    rw [hl2]
                    have hr : ({ resp with body := none } :
                        HTTPResponse) = resp := by
                      cases resp with
                      | mk sc hg b => simp_all
                    rw [hr]
                    cases e with
                    | mk r rb => simp_all
  exact ⟨hstate, by rw [hstate]⟩

/-- An error whose signal comes from the pre-read body, leaving the live
stream untouched. -/
def prereadErr : RESTError :=
  { response := some { statusCode := 429, headerGet := fun _ => "", body := none },
    responseBody := some (.decoded "You are being rate limited." 3 false) }

/-- C5 amended witness: repeated calls on prereadErr agree and leave the
error unchanged. -/
theorem parseRetryAfter_deterministic_without_stream_witness :
    usesLiveStream prereadErr = false ∧
    ((parseRetryAfter prereadErr).2 = prereadErr ∧
      parseRetryAfter ((parseRetryAfter prereadErr).2) =
        parseRetryAfter prereadErr) :=
  ⟨by decide, parseRetryAfter_deterministic_without_stream prereadErr (by decide)⟩

/-! Step lemmas for retryLoop: one per way an iteration can go. -/

theorem retryLoop_ctxCancel {T : Type} {ctx : Ctx} {op : Operation T}
    {fuel attempt queries calls : Nat} {acc : List Int} {result : T}
    {err : Option GoErr} {ce : GoErr} (h : ctx queries = some ce) :
    retryLoop ctx op (fuel + 1) attempt queries calls acc result err =
      ⟨result, some ce, calls, acc⟩ := by
  simp only [retryLoop, h]

theorem retryLoop_success {T : Type} {ctx : Ctx} {op : Operation T}
    {fuel attempt queries calls : Nat} {acc : List Int} {result r : T}
    {err : Option GoErr} (hq : ctx queries = none)
    (hop : op calls = (r, none)) :
    retryLoop ctx op (fuel + 1) attempt queries calls acc result err =
      ⟨r, none, calls + 1, acc⟩ := by
  simp only [retryLoop, hq, hop]

theorem retryLoop_plainErr {T : Type} {ctx : Ctx} {op : Operation T}
    {fuel attempt queries calls : Nat} {acc : List Int} {result r : T}
    {err : Option GoErr} {e : GoErr} (hq : ctx queries = none)
    (hop : op calls = (r, some e)) (he : isRateLimited e = false) :
    retryLoop ctx op (fuel + 1) attempt queries calls acc result err =
      ⟨r, some e, calls + 1, acc⟩ := by
  simp only [retryLoop, hq, hop]
  cases e with
  | rest re =>
      cases hresp : re.response with
      | none => simp [hresp]
      | some resp =>
          simp only [isRateLimited, hresp] at he
          simp [hresp, he]
  | simple m => rfl
  | maxRetriesExceeded n inner => rfl

theorem retryLoop_rateLimited_cancel {T : Type} {ctx : Ctx}
    {op : Operation T} {fuel attempt queries calls : Nat} {acc : List Int}
    {result r : T} {err : Option GoErr} {re : RESTError}
    {resp : HTTPResponse} {ce : GoErr} (hq : ctx queries = none)
    (hop : op calls = (r, some (.rest re)))
    (hresp : re.response = some resp) (hcode : resp.statusCode = 429)
    (hq2 : ctx (queries + 1) = some ce) :
    retryLoop ctx op (fuel + 1) attempt queries calls acc result err =
      ⟨r, some ce, calls + 1, acc⟩ := by
  simp only [retryLoop, hq, hop, hresp, hcode, hq2]
  simp

theorem retryLoop_rateLimited_continue {T : Type} {ctx : Ctx}
    {op : Operation T} {fuel attempt queries calls : Nat} {acc : List Int}
    {result r : T} {err : Option GoErr} {re : RESTError}
    {resp : HTTPResponse} (hq : ctx queries = none)
    (hop : op calls = (r, some (.rest re)))
    (hresp : re.response = some resp) (hcode : resp.statusCode = 429)
    (hq2 : ctx (queries + 1) = none) :
    retryLoop ctx op (fuel + 1) attempt queries calls acc result err =
      retryLoop ctx op fuel (attempt + 1) (queries + 2) (calls + 1)
        (acc ++ [calculateBackoff attempt (parseRetryAfter re).1]) r
        (some (.rest re)) := by
  simp only [retryLoop, hq, hop, hresp, hcode, hq2]
  simp

/-- No execution of the loop invokes the operation more than fuel more
times. -/
theorem retryLoop_opCalls_le {T : Type} (ctx : Ctx) (op : Operation T) :
    ∀ fuel attempt queries calls acc result err,
      (retryLoop ctx op fuel attempt queries calls acc result err).opCalls ≤
        calls + fuel := by
  intro fuel
  induction fuel with
  | zero => intro a q c acc r err; simp [retryLoop]
  | succ f ih =>
      intro a q c acc r err
      cases hq : ctx q with
      | some ce => rw [retryLoop_ctxCancel hq]; simp
      | none =>
          rcases hop : op c with ⟨r2, e2⟩
          cases e2 with
          | none => rw [retryLoop_success hq hop]; simp
          | some e =>
              by_cases hrl : isRateLimited e = true
              · cases e with
                | simple m => simp [isRateLimited] at hrl
                | maxRetriesExceeded n inner => simp [isRateLimited] at hrl
                | rest re =>
                    cases hresp : re.response with
                    | none => simp [isRateLimited, hresp] at hrl
                    | some resp =>
                        have hcode : resp.statusCode = 429 := by
                          simp only [isRateLimited, hresp] at hrl
                          exact beq_iff_eq.1 hrl
                        cases hq2 : ctx (q + 1) with
                        | some ce =>
                            rw [retryLoop_rateLimited_cancel hq hop hresp
                              hcode hq2]
                            simp
                        | none =>
                            rw [retryLoop_rateLimited_continue hq hop hresp
                              hcode hq2]
                            have := ih (a + 1) (q + 2) (c + 1)
                              (acc ++ [calculateBackoff a (parseRetryAfter re).1])
                              r2 (some (.rest re))
                            omega
              · rw [retryLoop_plainErr hq hop (by simpa using hrl)]
                simp

/-- Run shape when every invocation fails rate-limited and the context
never fires: all fuel is consumed, and the exhaustion error wraps the
last underlying error. -/
theorem retryLoop_always429 {T : Type} (op : Operation T)
    (h : ∀ n, failed429 (op n) = true) :
    ∀ fuel attempt queries calls acc result err,
      (retryLoop ctxNever op fuel attempt queries calls acc result err).opCalls =
        calls + fuel ∧
      (retryLoop ctxNever op fuel attempt queries calls acc result err).error =
        some (.maxRetriesExceeded maxRetries
          (if fuel = 0 then err else (op (calls + fuel - 1)).2)) := by
  intro fuel
  induction fuel with
  | zero => intro a q c acc r err; simp [retryLoop]
  | succ f ih =>
      intro a q c acc r err
      have h429 := h c
      rcases hop : op c with ⟨r2, e2⟩
      rw [hop] at h429
      cases e2 with
      | none => simp [failed429] at h429
      | some e =>
          simp only [failed429] at h429
          cases e with
          | simple m => simp [isRateLimited] at h429
          | maxRetriesExceeded n inner => simp [isRateLimited] at h429
          | rest re =>
              cases hresp : re.response with
              | none => simp [isRateLimited, hresp] at h429
              | some resp =>
                  have hcode : resp.statusCode = 429 := by
                    simp only [isRateLimited, hresp] at h429
                    exact beq_iff_eq.1 h429
                  rw [retryLoop_rateLimited_continue rfl hop hresp hcode rfl]
                  rcases ih (a + 1) (q + 2) (c + 1)
                      (acc ++ [calculateBackoff a (parseRetryAfter re).1])
                      r2 (some (.rest re)) with ⟨ihc, ihe⟩
                  refine ⟨by rw [ihc]; omega, ?_⟩
                  rw [ihe]
                  cases f with
                  | zero => simp [hop]
                  | succ s =>
                      have hidx : c + 1 + (s + 1) - 1 = c + (s + 1 + 1) - 1 := by
                        omega
                      simp [hidx]

/-- C1: with an operation that fails rate-limited (REST error, response
present, status 429) on every invocation and a never-signalled context,
executeWithRetry invokes the operation exactly maxRetries = 5 times and
returns the exhaustion error wrapping the last underlying error; and for
every context and operation whatsoever, the loop makes at most 5
invocations. -/
theorem executeWithRetry_always429_exhausts {T : Type} [Inhabited T]
    (op : Operation T) (h : ∀ n, failed429 (op n) = true) :
    (executeWithRetry ctxNever op).opCalls = 5 ∧
    (executeWithRetry ctxNever op).error =
      some (.maxRetriesExceeded 5 ((op 4).2)) ∧
    (∀ (S : Type) (inst : Inhabited S) (ctx : Ctx) (op2 : Operation S),
      (@executeWithRetry S inst ctx op2).opCalls ≤ 5) := by
  have e1 : executeWithRetry ctxNever op =
      retryLoop ctxNever op 5 0 0 0 [] default none := rfl
  rcases retryLoop_always429 op h 5 0 0 0 [] default none with ⟨hc, he⟩
  refine ⟨by rw [e1, hc], ?_, ?_⟩
  · rw [e1, he]
    simp [maxRetries]
  · intro S inst ctx op2
    have e2 : @executeWithRetry S inst ctx op2 =
        retryLoop ctx op2 5 0 0 0 [] default none := rfl
    rw [e2]
    simpa using retryLoop_opCalls_le ctx op2 5 0 0 0 [] default none

/-- A 429 REST error with an attached response and no wait signal. -/
def rlErr : RESTError :=
  { response := some { statusCode := 429, headerGet := fun _ => "", body := none },
    responseBody := none }

/-- An operation failing rate-limited on every invocation. -/
def opAlways429 : Operation Unit := fun _ => ((), some (.rest rlErr))

/-- C1 witness: the exhaustion run on opAlways429. -/
theorem executeWithRetry_always429_exhausts_witness :
    (∀ n, failed429 (opAlways429 n) = true) ∧
    ((executeWithRetry ctxNever opAlways429).opCalls = 5 ∧
      (executeWithRetry ctxNever opAlways429).error =
        some (.maxRetriesExceeded 5 ((opAlways429 4).2)) ∧
      (∀ (S : Type) (inst : Inhabited S) (ctx : Ctx) (op2 : Operation S),
        (@executeWithRetry S inst ctx op2).opCalls ≤ 5)) :=
  ⟨fun _ => rfl, executeWithRetry_always429_exhausts opAlways429 (fun _ => rfl)⟩

/-- C6: when the context has not fired and the first invocation fails
with any error that does not classify as a 429 REST failure (other status
codes, REST errors without a response, non-HTTP errors), executeWithRetry
returns that error verbatim after exactly one invocation, with no retry
and no wait. -/
theorem executeWithRetry_non429_no_retry {T : Type} [Inhabited T]
    (ctx : Ctx) (op : Operation T) (e : GoErr)
    (hctx : ctx 0 = none) (hop : (op 0).2 = some e)
    (he : isRateLimited e = false) :
    (executeWithRetry ctx op).result = (op 0).1 ∧
    (executeWithRetry ctx op).error = some e ∧
    (executeWithRetry ctx op).opCalls = 1 ∧
    (executeWithRetry ctx op).waits = [] := by
  have e1 : executeWithRetry ctx op =
      retryLoop ctx op 5 0 0 0 [] default none := rfl
  have hpair : op 0 = ((op 0).1, some e) := by
    rcases hp : op 0 with ⟨r2, e2⟩
    rw [hp] at hop
    simpa using hop
  rw [e1, retryLoop_plainErr hctx hpair he]
  exact ⟨rfl, rfl, rfl, rfl⟩

/-- An operation failing with a plain non-HTTP error. -/
def opPlainErr : Operation Unit := fun _ => ((), some (.simple "some other error"))

/-- C6 witness: the single-invocation run on opPlainErr. -/
theorem executeWithRetry_non429_no_retry_witness :
    ctxNever 0 = none ∧ (opPlainErr 0).2 = some (.simple "some other error") ∧
    isRateLimited (.simple "some other error") = false ∧
    ((executeWithRetry ctxNever opPlainErr).result = (opPlainErr 0).1 ∧
      (executeWithRetry ctxNever opPlainErr).error =
        some (.simple "some other error") ∧
      (executeWithRetry ctxNever opPlainErr).opCalls = 1 ∧
      (executeWithRetry ctxNever opPlainErr).waits = []) :=
  ⟨rfl, rfl, rfl,
    executeWithRetry_non429_no_retry ctxNever opPlainErr
      (.simple "some other error") rfl rfl rfl⟩

/-- C7: if the context is already signalled when executeWithRetry is
entered, it returns the cancellation error immediately, with the
zero-value result, without ever invoking the operation. -/
theorem executeWithRetry_cancelled_before_start {T : Type} [Inhabited T]
    (ctx : Ctx) (op : Operation T) (ce : GoErr) (hctx : ctx 0 = some ce) :
    (executeWithRetry ctx op).result = (default : T) ∧
    (executeWithRetry ctx op).error = some ce ∧
    (executeWithRetry ctx op).opCalls = 0 ∧
    (executeWithRetry ctx op).waits = [] := by
  have e1 : executeWithRetry ctx op =
      retryLoop ctx op 5 0 0 0 [] default none := rfl
  rw [e1, retryLoop_ctxCancel hctx]
  exact ⟨rfl, rfl, rfl, rfl⟩

/-- A context already cancelled at entry. -/
def ctxCancelled : Ctx := fun _ => some (.simple "context canceled")

/-- C7 witness: the cancelled-at-entry run on an operation that would
succeed. -/
theorem executeWithRetry_cancelled_before_start_witness :
    ctxCancelled 0 = some (.simple "context canceled") ∧
    ((executeWithRetry ctxCancelled (fun _ => ((), none))).result = () ∧
      (executeWithRetry ctxCancelled (fun _ => ((), none))).error =
        some (.simple "context canceled") ∧
      (executeWithRetry ctxCancelled (fun _ => ((), none))).opCalls = 0 ∧
      (executeWithRetry ctxCancelled (fun _ => ((), none))).waits = []) :=
  ⟨rfl, executeWithRetry_cancelled_before_start ctxCancelled
    (fun _ => ((), none)) (.simple "context canceled") rfl⟩

/-- The loop's error, invocation count and waits depend only on the error
components of the operation's outcomes, never on the result values. -/
theorem retryLoop_result_indep {T S : Type} (ctx : Ctx) (op1 : Operation T)
    (op2 : Operation S) (hsame : ∀ n, (op1 n).2 = (op2 n).2) :
    ∀ fuel attempt queries calls acc r1 r2 err,
      (retryLoop ctx op1 fuel attempt queries calls acc r1 err).error =
        (retryLoop ctx op2 fuel attempt queries calls acc r2 err).error ∧
      (retryLoop ctx op1 fuel attempt queries calls acc r1 err).opCalls =
        (retryLoop ctx op2 fuel attempt queries calls acc r2 err).opCalls ∧
      (retryLoop ctx op1 fuel attempt queries calls acc r1 err).waits =
        (retryLoop ctx op2 fuel attempt queries calls acc r2 err).waits := by
  intro fuel
  induction fuel with
  | zero => intro a q c acc r1 r2 err; simp [retryLoop]
  | succ f ih =>
      intro a q c acc r1 r2 err
      cases hq : ctx q with
      | some ce =>
          rw [retryLoop_ctxCancel hq, retryLoop_ctxCancel hq]
          exact ⟨rfl, rfl, rfl⟩
      | none =>
          rcases h1 : op1 c with ⟨x1, e1⟩
          rcases h2 : op2 c with ⟨x2, e2⟩
          have hee : e1 = e2 := by
            have := hsame c
            rw [h1, h2] at this
            exact this
          subst hee
          cases e1 with
          | none =>
              rw [retryLoop_success hq h1, retryLoop_success hq h2]
              exact ⟨rfl, rfl, rfl⟩
          | some e =>
              by_cases hrl : isRateLimited e = true
              · cases e with
                | simple m => simp [isRateLimited] at hrl
                | maxRetriesExceeded n inner => simp [isRateLimited] at hrl
                | rest re =>
                    cases hresp : re.response with
                    | none => simp [isRateLimited, hresp] at hrl
                    | some resp =>
                        have hcode : resp.statusCode = 429 := by
                          simp only [isRateLimited, hresp] at hrl
                          exact beq_iff_eq.1 hrl
                        cases hq2 : ctx (q + 1) with
                        | some ce =>
                            rw [retryLoop_rateLimited_cancel hq h1 hresp
                              hcode hq2,
                              retryLoop_rateLimited_cancel hq h2 hresp
                              hcode hq2]
                            exact ⟨rfl, rfl, rfl⟩
                        | none =>
                            rw [retryLoop_rateLimited_continue hq h1 hresp
                              hcode hq2,
                              retryLoop_rateLimited_continue hq h2 hresp
                              hcode hq2]
                            exact ih (a + 1) (q + 2) (c + 1)
                              (acc ++ [calculateBackoff a (parseRetryAfter re).1])
                              x1 x2 (some (.rest re))
              · rw [retryLoop_plainErr hq h1 (by simpa using hrl),
                  retryLoop_plainErr hq h2 (by simpa using hrl)]
                exact ⟨rfl, rfl, rfl⟩

/-- C9: executeWithRetryNoResult is exactly the error component of the
generic executor applied to the operation adapted with an empty-struct
placeholder, and the full policy (error returned, number of invocations,
waits slept) is identical whatever placeholder results the adapted
operation produces: the no-result variant is a thin adapter around the
generic loop, not a second policy. -/
theorem executeWithRetryNoResult_refines (ctx : Ctx)
    (op : Nat → Option GoErr) :
    executeWithRetryNoResult ctx op =
      (executeWithRetry ctx (fun n => ((), op n))).error ∧
    (∀ (T : Type) (inst : Inhabited T) (f : Nat → T),
      (@executeWithRetry T inst ctx (fun n => (f n, op n))).error =
        executeWithRetryNoResult ctx op ∧
      (@executeWithRetry T inst ctx (fun n => (f n, op n))).opCalls =
        (executeWithRetry ctx (fun n => ((), op n))).opCalls ∧
      (@executeWithRetry T inst ctx (fun n => (f n, op n))).waits =
        (executeWithRetry ctx (fun n => ((), op n))).waits) := by
  refine ⟨rfl, ?_⟩
  intro T inst f
  have H := retryLoop_result_indep ctx (fun n => (f n, op n))
    (fun n => ((), op n)) (fun _ => rfl) 5 0 0 0 [] default () none
  exact ⟨H.1, H.2.1, H.2.2⟩

end DiscordClient
